import Mathlib

/-!
Shallow embedding of the lotto data-acquisition engine of `src/app.py`
(lotto-analyzer), together with proofs about the behaviour its
specification claims.

Modelling conventions:
* Machine ints are `Int` (Python ints are unbounded, so no wrap-around).
* Dates are modelled by the number of calendar days since the epoch date
  `LOTTO_START_DATE` (2002-12-07, the date of round 1): the Python
  expression `(now_kst.date() - LOTTO_START_DATE).days` is the field
  `daysSinceEpoch`.  Python `//` on ints is floor division, which for the
  positive literal divisor 7 coincides with Lean's `Int` division.
* The HTTP layer is an oracle `transport : Int → Transport` giving, per
  round number, either a transport failure, a JSON-decoding failure, or a
  decoded payload.  Fields that may be missing from the payload dictionary
  are `Option`s; reading a missing field raises `KeyError` in Python, which
  the embedding models by propagating `none` at the read site.
* Streamlit UI calls (progress bar, status text) are modelled as an event
  trace so that claims about when and how often progress is reported can
  be stated.
-/

namespace LottoApp

/-- A decoded JSON payload of the remote lotto API
(`data` in `fetch_round_data`).  Every field that the downstream code reads
with `data[...]` may be absent from the real dictionary, hence `Option`.
`returnValue` is read with `.get`, which yields a distinguished value when
absent; the string "missing" plays that role (any non-"success" value
behaves identically in the code). -/
structure Payload where
  returnValue : String
  drwNoDate : Option String
  drwtNo1 : Option Int
  drwtNo2 : Option Int
  drwtNo3 : Option Int
  drwtNo4 : Option Int
  drwtNo5 : Option Int
  drwtNo6 : Option Int
  bnusNo : Option Int
deriving DecidableEq

/-- Outcome of one HTTP round-trip in `fetch_round_data`:
`requestError` covers `requests.exceptions.RequestException` (connection,
DNS, timeout, and the `raise_for_status` HTTP errors), `jsonError` covers
the `ValueError` raised by `response.json()`, and `ok` is a decoded
payload. -/
inductive Transport where
  | requestError : Transport
  | jsonError : Transport
  | ok : Payload → Transport
deriving DecidableEq

/-- `fetch_round_data` (src/app.py:73-100): returns the payload when the
request and JSON decoding succeed and the payload carries
`returnValue == "success"`; every failure path returns `None`.  The two
`except` arms catch `RequestException` and `ValueError`, so no exception
escapes. -/
def fetch_round_data (transport : Int → Transport) (round_no : Int) : Option Payload :=
  match transport round_no with
  | Transport.requestError => none
  | Transport.jsonError => none
  | Transport.ok data => if data.returnValue = "success" then some data else none

/-- The clock `datetime.now(KST)` as used by `get_latest_round`:
`daysSinceEpoch` is `(now_kst.date() - LOTTO_START_DATE).days`,
`weekday` is Python `weekday()` (Monday = 0 … Sunday = 6, Saturday = 5),
`hour` is the local hour of day. -/
structure KstClock where
  daysSinceEpoch : Int
  weekday : Nat
  hour : Nat

/-- `SATURDAY_DRAW_HOUR = 21` (src/app.py:21). -/
def SATURDAY_DRAW_HOUR : Nat := 21

/-- `DEFAULT_LOAD_COUNT = 100` (src/app.py:22). -/
def DEFAULT_LOAD_COUNT : Int := 100

/-- `ADDITIONAL_LOAD_COUNT = 200` (src/app.py:23). -/
def ADDITIONAL_LOAD_COUNT : Int := 200

/-- The expected-round computation of `get_latest_round`
(src/app.py:110-118): `weeks_passed = days // 7`,
`expected_round = 1 + weeks_passed`, plus one more when the clock shows
Saturday (`weekday() == 5`) at or after `SATURDAY_DRAW_HOUR`. -/
def estimate_expected_round (now : KstClock) : Int :=
  let weeks_passed := now.daysSinceEpoch / 7
  let expected_round := 1 + weeks_passed
  if now.weekday = 5 ∧ SATURDAY_DRAW_HOUR ≤ now.hour then expected_round + 1
  else expected_round

/-- The probe offsets of the verification loop in `get_latest_round`
(src/app.py:121): Python `range(0, -4, -1) = [0, -1, -2, -3]`. -/
def probeOffsets : List Int := [0, -1, -2, -3]

/-- The verification loop of `get_latest_round` (src/app.py:121-129):
walks the offsets in order, returns `expected + offset` for the first
offset whose round is ≥ 1 and fetches successfully; when the loop is
exhausted, returns the safety-net value `max 1 (expected - 2)`. -/
def verifyRound (fetchOk : Int → Bool) (expected_round : Int) : List Int → Int
  | [] => max 1 (expected_round - 2)
  | o :: rest =>
    let round_to_check := expected_round + o
    if 1 ≤ round_to_check ∧ fetchOk round_to_check = true then round_to_check
    else verifyRound fetchOk expected_round rest

/-- `get_latest_round` (src/app.py:103-129): estimate the expected round
from the clock, then verify it against the API via `fetch_round_data`. -/
def get_latest_round (transport : Int → Transport) (now : KstClock) : Int :=
  verifyRound (fun r => (fetch_round_data transport r).isSome)
    (estimate_expected_round now) probeOffsets

/-- The rounds the verification loop may probe, in probing order. -/
def probeRounds (expected_round : Int) : List Int :=
  probeOffsets.map (fun o => expected_round + o)

/-- One row of the DataFrame built by `load_lotto_data_range`
(src/app.py:161-166): `회차` (round), `날짜` (date string), `번호`
(the six winning numbers), `보너스` (bonus number).  No validity
constraint is imposed by the code, so none is imposed here. -/
structure DrawRecord where
  round : Int
  date : String
  numbers : List Int
  bonus : Int
deriving DecidableEq

/-- `min` of the `회차` column of a non-empty DataFrame
(`df['회차'].min()`); 0 for the empty frame (pandas would give NaN, and
the code only calls this on non-empty frames). -/
def minRound : List DrawRecord → Int
  | [] => 0
  | r :: rs => (rs.map DrawRecord.round).foldl min r.round

/-- `max` of the `회차` column of a non-empty DataFrame
(`df['회차'].max()`); 0 for the empty frame. -/
def maxRound : List DrawRecord → Int
  | [] => 0
  | r :: rs => (rs.map DrawRecord.round).foldl max r.round

/-- State of the on-disk cache file as `load_from_cache` can observe it:
the file is `missing` (`os.path.exists` false), `malformed` (any
exception while reading: JSON decode failure, missing `data` or
`last_updated` key, unparsable timestamp — all caught by the broad
`except`), or `wellFormed data last_updated` with `last_updated` in
seconds.  The record list carries no validity constraints: `pd.DataFrame`
accepts arbitrary rows. -/
inductive CacheFile where
  | missing : CacheFile
  | malformed : CacheFile
  | wellFormed : List DrawRecord → Int → CacheFile
deriving DecidableEq

/-- `load_from_cache` (src/app.py:47-70): returns the cached DataFrame
only when the file exists, parses, and
`(datetime.now(KST) - last_updated).total_seconds() < 86400`; otherwise
returns `None`.  The function only reads the file, so the second
component of the result is the unchanged file state. -/
def load_from_cache (now : Int) : CacheFile → Option (List DrawRecord) × CacheFile
  | CacheFile.missing => (none, CacheFile.missing)
  | CacheFile.malformed => (none, CacheFile.malformed)
  | CacheFile.wellFormed data last_updated =>
    if now - last_updated < 86400 then
      (some data, CacheFile.wellFormed data last_updated)
    else
      (none, CacheFile.wellFormed data last_updated)

/-- The second component of the freshness report of
`check_data_freshness` (src/app.py:304-323): `데이터 없음` (no data),
`최신` (fresh), `거의 최신` (nearly fresh), or `N회차 뒤처짐`
(N rounds behind). -/
inductive Freshness where
  | noData : Freshness
  | fresh : Freshness
  | nearFresh : Freshness
  | stale : Int → Freshness
deriving DecidableEq

/-- `check_data_freshness` (src/app.py:304-323) with the re-verified
latest round passed in (the code obtains it from `get_latest_round`):
`(True, 최신)` when `data_latest >= latest_round`, `(True, 거의 최신)`
when the gap is at most 2, else `(False, … 뒤처짐)`.  The function reads
`st.session_state` and mutates nothing, hence a pure function here. -/
def check_data_freshness (latest_round : Int) (lotto_data : List DrawRecord) :
    Bool × Freshness :=
  if lotto_data = [] then (false, Freshness.noData)
  else
    let data_latest := maxRound lotto_data
    if latest_round ≤ data_latest then (true, Freshness.fresh)
    else if latest_round - data_latest ≤ 2 then (true, Freshness.nearFresh)
    else (false, Freshness.stale (latest_round - data_latest))

/-- Observable UI/network events of a range load: the progress update
(`progress_bar.progress((i+1)/total)` together with the status text —
abstracted to the pair `(completed, total)` = `(i+1, total)`), and one
fetch attempt (`fetch_round_data(round_no)`). -/
inductive Event where
  | progress : Int → Int → Event
  | fetchAttempt : Int → Event
deriving DecidableEq

/-- The rounds of a fetch trace, in order of attempt. -/
def attemptedRounds (evs : List Event) : List Int :=
  evs.filterMap (fun e =>
    match e with
    | Event.fetchAttempt r => some r
    | _ => none)

/-- The `(completed, total)` pairs of a trace, in order of emission. -/
def progressReports (evs : List Event) : List (Int × Int) :=
  evs.filterMap (fun e =>
    match e with
    | Event.progress c t => some (c, t)
    | _ => none)

/-- The record construction inside the loop of `load_lotto_data_range`
(src/app.py:160-166): `numbers = [data[f"drwtNo{i}"] for i in range(1,7)]`
then the row `{회차: round_no, 날짜: data["drwNoDate"], 번호: numbers,
보너스: data["bnusNo"]}`.  Each `data[...]` raises `KeyError` when the
key is absent, modelled by `none`. -/
def extractRecord (round_no : Int) (data : Payload) : Option DrawRecord :=
  match data.drwtNo1, data.drwtNo2, data.drwtNo3, data.drwtNo4,
      data.drwtNo5, data.drwtNo6, data.drwNoDate, data.bnusNo with
  | some n1, some n2, some n3, some n4, some n5, some n6, some d, some b =>
    some ⟨round_no, d, [n1, n2, n3, n4, n5, n6], b⟩
  | _, _, _, _, _, _, _, _ => none

/-- The `for` loop of `load_lotto_data_range` (src/app.py:152-168) over the
remaining rounds, with `i` the enumeration index.  Each iteration first
emits the progress update, then attempts the fetch; a fetch returning
`None` is logged and skipped; a successful fetch whose payload lacks a
required key raises `KeyError`, which the surrounding `try` turns into an
abort of the whole batch (result `none`).  The events emitted before the
abort remain emitted. -/
def loadRounds (fetch : Int → Option Payload) (total : Int) :
    List Int → Int → Option (List DrawRecord) × List Event
  | [], _ => (some [], [])
  | round_no :: rest, i =>
    let evs := [Event.progress (i + 1) total, Event.fetchAttempt round_no]
    match fetch round_no with
    | none =>
      let tail := loadRounds fetch total rest (i + 1)
      (tail.1, evs ++ tail.2)
    | some data =>
      match extractRecord round_no data with
      | none => (none, evs)
      | some rec =>
        let tail := loadRounds fetch total rest (i + 1)
        (tail.1.map (fun l => rec :: l), evs ++ tail.2)

/-- Python `range(start_round, end_round + 1)` as a list of `Int`. -/
def roundList (start_round end_round : Int) : List Int :=
  (List.range (end_round + 1 - start_round).toNat).map
    (fun (i : Nat) => start_round + (i : Int))

/-- `load_lotto_data_range` (src/app.py:133-183): iterates the rounds of
the range, collecting the successfully fetched records in round order;
`total_rounds = end_round - start_round + 1`.  On an exception inside the
loop the `except` arm returns the empty DataFrame (and the trace keeps
the events already emitted). -/
def load_lotto_data_range (fetch : Int → Option Payload)
    (start_round end_round : Int) : List DrawRecord × List Event :=
  let total_rounds := end_round - start_round + 1
  let result := loadRounds fetch total_rounds (roundList start_round end_round) 0
  (result.1.getD [], result.2)

/-- The merge step of `load_additional_data` (src/app.py:269-270):
`pd.concat([additional_df, current_df])` followed by
`sort_values('회차')` — concatenation and a sort on the round column,
with no duplicate handling of any kind. -/
def mergeDatasets (additional_df current_df : List DrawRecord) : List DrawRecord :=
  List.insertionSort (fun a b => a.round ≤ b.round) (additional_df ++ current_df)

instance : IsTotal DrawRecord (fun a b => a.round ≤ b.round) :=
  ⟨fun a b => le_total a.round b.round⟩

instance : IsTrans DrawRecord (fun a b => a.round ≤ b.round) :=
  ⟨fun _ _ _ h1 h2 => le_trans h1 h2⟩

/-- Result of `load_additional_data` (src/app.py:243-281), one constructor
per user-visible outcome: `noBaseData` (`st.warning` "기본 데이터를 먼저
로딩해주세요"), `allLoaded` (`st.warning` "모든 데이터가 이미
로딩되었습니다", the distinct no-op report), `loadFailed` (`st.error`
"추가 데이터 로딩에 실패했습니다"), `extended` with the merged dataset
(`st.success`). -/
inductive ExtendOutcome where
  | noBaseData : ExtendOutcome
  | allLoaded : ExtendOutcome
  | loadFailed : ExtendOutcome
  | extended : List DrawRecord → ExtendOutcome
deriving DecidableEq

/-- `load_additional_data` (src/app.py:243-281): computes
`additional_count = min(count, current_min_round - 1)`; when that is ≤ 0
reports the distinct no-op; otherwise range-loads
`[max(1, current_min_round - additional_count), current_min_round - 1]`
and, when the load returned something, merges it with the current data.
The second component is the event trace of the range load. -/
def load_additional_data (fetch : Int → Option Payload) (count : Int)
    (current_df : List DrawRecord) : ExtendOutcome × List Event :=
  if current_df = [] then (ExtendOutcome.noBaseData, [])
  else
    let current_min_round := minRound current_df
    let additional_count := min count (current_min_round - 1)
    if additional_count ≤ 0 then (ExtendOutcome.allLoaded, [])
    else
      let start_round := max 1 (current_min_round - additional_count)
      let end_round := current_min_round - 1
      let loaded := load_lotto_data_range fetch start_round end_round
      if loaded.1 = [] then (ExtendOutcome.loadFailed, loaded.2)
      else (ExtendOutcome.extended (mergeDatasets loaded.1 current_df), loaded.2)

/-- Result of the first-run branch of `load_lotto_data_progressive`:
the returned DataFrame, the event trace of any range load performed, and
the dataset passed to `save_to_cache` when a save happened. -/
structure ProgOutcome where
  data : List DrawRecord
  trace : List Event
  saved : Option (List DrawRecord)
deriving DecidableEq

/-- The online branch of `load_lotto_data_progressive`
(src/app.py:217-238): `load_count = min(DEFAULT_LOAD_COUNT,
latest_round)`, `start_round = max(1, latest_round - load_count + 1)`,
range-load up to `latest_round`, and cache the result when non-empty. -/
def onlineInitialLoad (fetch : Int → Option Payload) (latest_round : Int) :
    ProgOutcome :=
  let load_count := min DEFAULT_LOAD_COUNT latest_round
  let start_round := max 1 (latest_round - load_count + 1)
  let loaded := load_lotto_data_range fetch start_round latest_round
  if loaded.1 = [] then ⟨loaded.1, loaded.2, none⟩
  else ⟨loaded.1, loaded.2, some loaded.1⟩

/-- The first-run branch (`loaded_rounds == 0`) of
`load_lotto_data_progressive` (src/app.py:186-238), with the verified
latest round passed in (the code obtains it from `get_latest_round`
before this branch): try the cache; when the cached frame exists, is
non-empty, and `cached_df['회차'].max() >= latest_round - 5`, return it
unchanged with no range load; otherwise load online. -/
def load_lotto_data_progressive (fetch : Int → Option Payload) (now : Int)
    (file : CacheFile) (latest_round : Int) : ProgOutcome :=
  match (load_from_cache now file).1 with
  | some cached_df =>
    if cached_df = [] then onlineInitialLoad fetch latest_round
    else if latest_round - 5 ≤ maxRound cached_df then ⟨cached_df, [], none⟩
    else onlineInitialLoad fetch latest_round
  | none => onlineInitialLoad fetch latest_round

/-- Whether a payload carries every field the range loader reads on the
success path: the six winning numbers, the draw date, and the bonus
number. -/
def payloadComplete (p : Payload) : Bool :=
  p.drwtNo1.isSome && p.drwtNo2.isSome && p.drwtNo3.isSome &&
    p.drwtNo4.isSome && p.drwtNo5.isSome && p.drwtNo6.isSome &&
    p.drwNoDate.isSome && p.bnusNo.isSome

/-- The event trace that one full (unaborted) pass of the loop of
`load_lotto_data_range` emits over the given rounds, starting at
enumeration index `i`: per round, first the progress update, then the
fetch attempt. -/
def traceBlocks (total : Int) : List Int → Int → List Event
  | [], _ => []
  | round_no :: rest, i =>
    Event.progress (i + 1) total :: Event.fetchAttempt round_no ::
      traceBlocks total rest (i + 1)

/-- A complete success payload, used as a concrete fetch result in
witnesses. -/
def samplePayload : Payload :=
  ⟨"success", some "2024-01-06", some 1, some 2, some 3, some 4, some 5,
    some 6, some 7⟩

/-- A fetch oracle that succeeds on every round with `samplePayload`. -/
def sampleFetch : Int → Option Payload := fun _ => some samplePayload

/-- A fetch oracle that fails on round 2 and succeeds elsewhere. -/
def gapFetch : Int → Option Payload :=
  fun r => if r = 2 then none else some samplePayload

/-! ## Theorems -/

/-- Helper: the fields of a record produced by `extractRecord` come from
its arguments; in particular the record's round is the requested round. -/
theorem extractRecord_round {round_no : Int} {p : Payload} {rec : DrawRecord}
    (h : extractRecord round_no p = some rec) : rec.round = round_no := by
  unfold extractRecord at h
  split at h
  · obtain rfl := Option.some.inj h
    rfl
  · simp at h

/-- Helper: every successful `sampleFetch` payload extracts. -/
theorem sampleFetch_complete :
    ∀ r p, sampleFetch r = some p → (extractRecord r p).isSome := by
  intro r p h
  obtain rfl := Option.some.inj h
  rfl

/-- Helper: every successful `gapFetch` payload extracts. -/
theorem gapFetch_complete :
    ∀ r p, gapFetch r = some p → (extractRecord r p).isSome := by
  intro r p h
  unfold gapFetch at h
  split at h
  · simp at h
  · obtain rfl := Option.some.inj h
    rfl

/-- Helper: membership in `roundList` is exactly membership in the
closed interval. -/
theorem mem_roundList {s e r : Int} : r ∈ roundList s e ↔ s ≤ r ∧ r ≤ e := by
  simp only [roundList, List.mem_map, List.mem_range]
  constructor
  · rintro ⟨i, hi, rfl⟩
    omega
  · rintro ⟨h1, h2⟩
    exact ⟨(r - s).toNat, by omega, by omega⟩

/-- Helper: the rounds of a range are strictly increasing. -/
theorem roundList_pairwise (s e : Int) :
    (roundList s e).Pairwise (fun a b => a < b) := by
  rw [roundList]
  refine List.Pairwise.map _ (fun a b h => ?_) (List.pairwise_lt_range _)
  omega

/-- Equation: the loop on a failed fetch logs the round as skipped and
continues with the rest. -/
theorem loadRounds_cons_none (fetch : Int → Option Payload) (total r : Int)
    (rest : List Int) (i : Int) (hf : fetch r = none) :
    loadRounds fetch total (r :: rest) i =
      ((loadRounds fetch total rest (i + 1)).1,
        Event.progress (i + 1) total :: Event.fetchAttempt r ::
          (loadRounds fetch total rest (i + 1)).2) := by
  rw [loadRounds, hf]
  rfl

/-- Equation: the loop on a successful fetch whose payload lacks a
required key raises, aborting the batch. -/
theorem loadRounds_cons_abort (fetch : Int → Option Payload) (total r : Int)
    (rest : List Int) (i : Int) (data : Payload) (hf : fetch r = some data)
    (he : extractRecord r data = none) :
    loadRounds fetch total (r :: rest) i =
      (none, [Event.progress (i + 1) total, Event.fetchAttempt r]) := by
  rw [loadRounds, hf]
  dsimp only []
  rw [he]

/-- Equation: the loop on a successful, complete fetch appends the
record and continues with the rest. -/
theorem loadRounds_cons_some (fetch : Int → Option Payload) (total r : Int)
    (rest : List Int) (i : Int) (data : Payload) (rec : DrawRecord)
    (hf : fetch r = some data) (he : extractRecord r data = some rec) :
    loadRounds fetch total (r :: rest) i =
      ((loadRounds fetch total rest (i + 1)).1.map (fun l => rec :: l),
        Event.progress (i + 1) total :: Event.fetchAttempt r ::
          (loadRounds fetch total rest (i + 1)).2) := by
  rw [loadRounds, hf]
  dsimp only []
  rw [he]
  rfl

/-- Helper: the rounds of a returned record list form a sublist of the
requested rounds (some rounds may be skipped, none reordered or
invented). -/
theorem loadRounds_round_sublist (fetch : Int → Option Payload) (total : Int) :
    ∀ (rounds : List Int) (i : Int) (l : List DrawRecord),
      (loadRounds fetch total rounds i).1 = some l →
      (l.map DrawRecord.round).Sublist rounds
  | [], _, l, h => by
    obtain rfl := Option.some.inj h
    simp
  | round_no :: rest, i, l, h => by
    cases hf : fetch round_no with
    | none =>
      rw [loadRounds_cons_none fetch total round_no rest i hf] at h
      exact (loadRounds_round_sublist fetch total rest (i + 1) l h).cons round_no
    | some data =>
      cases he : extractRecord round_no data with
      | none =>
        rw [loadRounds_cons_abort fetch total round_no rest i data hf he] at h
        simp at h
      | some rec =>
        rw [loadRounds_cons_some fetch total round_no rest i data rec hf he] at h
        cases ht : (loadRounds fetch total rest (i + 1)).1 with
        | none => rw [ht] at h; simp at h
        | some tl =>
          rw [ht] at h
          obtain rfl := Option.some.inj h
          have hs := loadRounds_round_sublist fetch total rest (i + 1) tl ht
          rw [List.map_cons, extractRecord_round he]
          exact hs.cons₂ round_no

/-- Helper: when every successfully fetched payload in sight is complete,
the loop never aborts: it returns exactly the records of the successful
rounds, in order, and emits the full block trace. -/
theorem loadRounds_of_complete (fetch : Int → Option Payload) (total : Int)
    (hc : ∀ r p, fetch r = some p → (extractRecord r p).isSome) :
    ∀ (rounds : List Int) (i : Int),
      loadRounds fetch total rounds i =
        (some (rounds.filterMap (fun r => (fetch r).bind (extractRecord r))),
          traceBlocks total rounds i)
  | [], _ => rfl
  | round_no :: rest, i => by
    cases hf : fetch round_no with
    | none =>
      rw [loadRounds_cons_none fetch total round_no rest i hf,
        loadRounds_of_complete fetch total hc rest (i + 1),
        List.filterMap_cons, traceBlocks]
      simp [hf]
    | some data =>
      obtain ⟨rec, he⟩ := Option.isSome_iff_exists.mp (hc _ _ hf)
      rw [loadRounds_cons_some fetch total round_no rest i data rec hf he,
        loadRounds_of_complete fetch total hc rest (i + 1),
        List.filterMap_cons, traceBlocks]
      simp [hf, he]

/-- Helper: the attempted rounds of a full block trace are exactly the
given rounds. -/
theorem attemptedRounds_traceBlocks (total : Int) :
    ∀ (rounds : List Int) (i : Int),
      attemptedRounds (traceBlocks total rounds i) = rounds
  | [], _ => rfl
  | round_no :: rest, i => by
    rw [traceBlocks, attemptedRounds, List.filterMap_cons, List.filterMap_cons]
    simpa [attemptedRounds] using attemptedRounds_traceBlocks total rest (i + 1)

/-- Helper: the progress reports of a full block trace over `rounds`
starting at index `i` are `(i+1, total), (i+2, total), …`, one per
round. -/
theorem progressReports_traceBlocks (total : Int) :
    ∀ (rounds : List Int) (i : Int),
      progressReports (traceBlocks total rounds i) =
        (List.range rounds.length).map (fun (k : Nat) => (i + (k : Int) + 1, total))
  | [], _ => rfl
  | round_no :: rest, i => by
    rw [traceBlocks, progressReports, List.filterMap_cons, List.filterMap_cons]
    have ih := progressReports_traceBlocks total rest (i + 1)
    rw [progressReports] at ih
    simp only [List.length_cons, List.range_succ_eq_map, List.map_cons,
      List.map_map]
    rw [ih]
    congr 1
    · norm_num
    · refine List.map_congr_left (fun k _ => ?_)
      simp only [Function.comp_apply]
      have hk : ((k + 1 : Nat) : Int) = (k : Int) + 1 := by push_cast; ring
      rw [Nat.succ_eq_add_one, hk]
      congr 1
      ring

/-- Helper: a fetch attempt for round `r` appears in a full block trace
exactly when `r` is one of the traced rounds. -/
theorem fetchAttempt_mem_traceBlocks (total : Int) :
    ∀ (rounds : List Int) (i r : Int),
      Event.fetchAttempt r ∈ traceBlocks total rounds i ↔ r ∈ rounds
  | [], _, r => by simp [traceBlocks]
  | round_no :: rest, i, r => by
    rw [traceBlocks]
    simp [fetchAttempt_mem_traceBlocks total rest (i + 1) r]

/-- Helper: a range load whose successful payloads are all complete
returns the extracted records of the successful rounds, in round order,
together with the full block trace. -/
theorem load_range_of_complete (fetch : Int → Option Payload) (s e : Int)
    (hc : ∀ r p, fetch r = some p → (extractRecord r p).isSome) :
    load_lotto_data_range fetch s e =
      ((roundList s e).filterMap (fun r => (fetch r).bind (extractRecord r)),
        traceBlocks (e - s + 1) (roundList s e) 0) := by
  rw [load_lotto_data_range]
  rw [loadRounds_of_complete fetch (e - s + 1) hc (roundList s e) 0]
  rfl

/-- C3: partial-success semantics of range loading — when the fetch for a
round `fr` inside `[s, e]` fails (any failure kind: transport error, JSON
error, or rejected payload all make `fetch_round_data` return `None`),
the loader records it as skipped and continues: the failed round is a gap
in the returned dataset, every round of the range is still attempted, and
every other successfully fetched round's record is present.  (The
completeness hypothesis `hc` rules out the separate abort-on-missing-key
path, which is not a fetch failure.) -/
theorem load_range_partial_success (fetch : Int → Option Payload)
    (s e fr : Int) (hs : s ≤ fr) (hee : fr ≤ e) (hfail : fetch fr = none)
    (hc : ∀ r p, fetch r = some p → (extractRecord r p).isSome) :
    fr ∉ ((load_lotto_data_range fetch s e).1.map DrawRecord.round) ∧
    (∀ r, s ≤ r → r ≤ e →
      Event.fetchAttempt r ∈ (load_lotto_data_range fetch s e).2) ∧
    (∀ r p rec, s ≤ r → r ≤ e → fetch r = some p →
      extractRecord r p = some rec →
      rec ∈ (load_lotto_data_range fetch s e).1) := by
  rw [load_range_of_complete fetch s e hc]
  refine ⟨?_, ?_, ?_⟩
  · intro hmem
    simp only [List.mem_map, List.mem_filterMap] at hmem
    obtain ⟨rec, ⟨r, _, hbind⟩, hround⟩ := hmem
    cases hf : fetch r with
    | none => rw [hf] at hbind; simp at hbind
    | some p =>
      rw [hf] at hbind
      simp only [Option.some_bind] at hbind
      rw [extractRecord_round hbind] at hround
      rw [hround] at hf
      rw [hfail] at hf
      exact Option.noConfusion hf
  · intro r h1 h2
    exact (fetchAttempt_mem_traceBlocks _ _ _ _).mpr (mem_roundList.mpr ⟨h1, h2⟩)
  · intro r p rec h1 h2 hf hrec
    refine List.mem_filterMap.mpr ⟨r, mem_roundList.mpr ⟨h1, h2⟩, ?_⟩
    rw [hf]
    simpa using hrec

/-- Witness for C3: with a fetcher that fails exactly on round 2, the
load of `[1, 3]` skips round 2 yet still attempts round 3. -/
theorem load_range_partial_success_witness :
    (2 : Int) ∉ ((load_lotto_data_range gapFetch 1 3).1.map DrawRecord.round) ∧
    Event.fetchAttempt 3 ∈ (load_lotto_data_range gapFetch 1 3).2 := by
  have h := load_range_partial_success gapFetch 1 3 2 (by decide) (by decide)
    (by decide) gapFetch_complete
  exact ⟨h.1, h.2.1 3 (by decide) (by decide)⟩

/-- C9 fails as stated: the loop updates the progress display BEFORE each
per-round fetch attempt (src/app.py:153-158), not after — for a one-round
range the emitted trace begins with the progress event, whereas the
claimed after-each-attempt ordering would put the fetch attempt first. -/
theorem progress_emitted_before_fetch :
    (load_lotto_data_range (fun _ => none) 1 1).2 =
      [Event.progress 1 1, Event.fetchAttempt 1] ∧
    (load_lotto_data_range (fun _ => none) 1 1).2 ≠
      [Event.fetchAttempt 1, Event.progress 1 1] :=
  ⟨by decide, by decide⟩

/-- C9 amended: during a range load over `[s, e]` the progress callback
is invoked exactly once per per-round fetch attempt, immediately before
the attempt, with strictly increasing completed counts `1, 2, …` and the
fixed total `e - s + 1`. -/
theorem load_range_progress_contract (fetch : Int → Option Payload) (s e : Int)
    (hc : ∀ r p, fetch r = some p → (extractRecord r p).isSome) :
    (load_lotto_data_range fetch s e).2 =
      traceBlocks (e - s + 1) (roundList s e) 0 ∧
    progressReports (load_lotto_data_range fetch s e).2 =
      (List.range (roundList s e).length).map
        (fun (k : Nat) => ((k : Int) + 1, e - s + 1)) ∧
    ((progressReports (load_lotto_data_range fetch s e).2).map Prod.fst).Pairwise
      (fun a b => a < b) ∧
    (∀ q ∈ progressReports (load_lotto_data_range fetch s e).2,
      q.2 = e - s + 1) ∧
    (progressReports (load_lotto_data_range fetch s e).2).length =
      (attemptedRounds (load_lotto_data_range fetch s e).2).length := by
  rw [load_range_of_complete fetch s e hc]
  dsimp only []
  rw [progressReports_traceBlocks (e - s + 1) (roundList s e) 0,
    attemptedRounds_traceBlocks (e - s + 1) (roundList s e) 0]
  refine ⟨rfl, ?_, ?_, ?_, ?_⟩
  · refine List.map_congr_left (fun k _ => ?_)
    rw [Prod.mk.injEq]
    exact ⟨by ring, rfl⟩
  · rw [List.map_map]
    refine List.Pairwise.map _ (fun a b hab => ?_) (List.pairwise_lt_range _)
    simp only [Function.comp_apply]
    omega
  · intro q hq
    simp only [List.mem_map] at hq
    obtain ⟨k, _, rfl⟩ := hq
    rfl
  · simp

/-- Witness for C9 amended: the two-round load over `[1, 2]` with the
always-successful fetcher emits exactly the block trace. -/
theorem load_range_progress_contract_witness :
    (load_lotto_data_range sampleFetch 1 2).2 =
      traceBlocks 2 (roundList 1 2) 0 :=
  (load_range_progress_contract sampleFetch 1 2 sampleFetch_complete).1

/-- Helper: the verification loop returns the first probed round that is
≥ 1 and fetches successfully, and the safety-net value when no probe
qualifies. -/
theorem verifyRound_eq_find (fetchOk : Int → Bool) (e : Int) :
    ∀ offs : List Int,
      verifyRound fetchOk e offs =
        ((offs.map (fun o => e + o)).find?
            (fun r => decide (1 ≤ r) && fetchOk r)).getD (max 1 (e - 2))
  | [] => rfl
  | o :: rest => by
    rw [verifyRound]
    by_cases h : 1 ≤ e + o ∧ fetchOk (e + o) = true
    · rw [if_pos h, List.map_cons,
        List.find?_cons_of_pos _ (by simp [h.1, h.2]), Option.getD_some]
    · rw [if_neg h, List.map_cons, List.find?_cons_of_neg _ (by simpa using h)]
      exact verifyRound_eq_find fetchOk e rest

/-- C5: for every clock value `t`, the estimated expected round equals
`1 + ⌊days/7⌋` (with a true mathematical floor over ℚ), plus exactly one
more when the local weekday is Saturday (Python weekday 5) and the local
hour is at or after the draw hour 21. -/
theorem estimate_expected_round_formula (t : KstClock) :
    estimate_expected_round t =
      1 + ⌊(t.daysSinceEpoch : ℚ) / 7⌋ +
        (if t.weekday = 5 ∧ SATURDAY_DRAW_HOUR ≤ t.hour then 1 else 0) := by
  have h7 : ⌊(t.daysSinceEpoch : ℚ) / 7⌋ = t.daysSinceEpoch / 7 := by
    have h := Rat.floor_intCast_div_natCast t.daysSinceEpoch 7
    norm_num at h
    exact h
  rw [estimate_expected_round, h7]
  split <;> ring

/-- C7: the latest-round verification probes the rounds `expected`,
`expected - 1`, `expected - 2`, `expected - 3` in that order, returns the
first one that is ≥ 1 and fetches successfully, and falls back to
`max 1 (expected - 2)` when none qualifies (the `getD` default).  The
function always returns an `Int`, so the degraded path is an ordinary
result, never a fatal error. -/
theorem verify_latest_round_spec (fetchOk : Int → Bool) (expected : Int) :
    probeRounds expected = [expected, expected - 1, expected - 2, expected - 3] ∧
    verifyRound fetchOk expected probeOffsets =
      ((probeRounds expected).find?
          (fun r => decide (1 ≤ r) && fetchOk r)).getD (max 1 (expected - 2)) := by
  constructor
  · simp only [probeRounds, probeOffsets, List.map_cons, List.map_nil,
      List.cons.injEq, and_true]
    refine ⟨by ring, by ring, by ring, by ring⟩
  · exact verifyRound_eq_find fetchOk expected probeOffsets

/-- C8: the cache load returns `None` when no snapshot file exists, when
the snapshot is structurally malformed, or when `now - last_updated`
exceeds the 24-hour TTL (86400 seconds) — the staleness check never
inspects the data, which is universally quantified here — and in every
such case the file state is left untouched (the load only declines to
return the snapshot; it deletes nothing). -/
theorem load_from_cache_absent (now : Int) (f : CacheFile)
    (h : f = CacheFile.missing ∨ f = CacheFile.malformed ∨
      ∃ data lu, f = CacheFile.wellFormed data lu ∧ 86400 < now - lu) :
    (load_from_cache now f).1 = none ∧ (load_from_cache now f).2 = f := by
  rcases h with rfl | rfl | ⟨data, lu, rfl, hlu⟩
  · exact ⟨rfl, rfl⟩
  · exact ⟨rfl, rfl⟩
  · rw [load_from_cache, if_neg (by omega)]
    exact ⟨rfl, rfl⟩

/-- Witness for C8 at a concrete stale snapshot: the file with
`last_updated = 0` read at `now = 100000` (27.8 hours later) yields no
data and is not deleted. -/
theorem load_from_cache_absent_witness :
    (load_from_cache 100000 (CacheFile.wellFormed [] 0)).1 = none ∧
    (load_from_cache 100000 (CacheFile.wellFormed [] 0)).2 =
      CacheFile.wellFormed [] 0 :=
  load_from_cache_absent 100000 (CacheFile.wellFormed [] 0)
    (Or.inr (Or.inr ⟨[], 0, rfl, by decide⟩))

/-- C10 fails as stated: the code classifies the data as fresh
(`(True, "최신")`) whenever the dataset's max round is at least the
verified latest round, not only when the two are equal — here the dataset
max is 5 and the verified latest is 3, yet the result is Fresh. -/
theorem check_data_freshness_not_eq_based :
    check_data_freshness 3 [⟨5, "", [], 0⟩] = (true, Freshness.fresh) ∧
    maxRound [⟨5, "", [], 0⟩] ≠ 3 := by
  exact ⟨by decide, by decide⟩

/-- C10 amended: for a non-empty dataset with max round `d` and verified
latest round `v`, the classification is Fresh exactly when `d ≥ v`,
NearFresh exactly when `d < v` and `v - d ≤ 2`, and Stale (with the gap
reported) exactly when `v - d > 2`; the query is a pure function of its
inputs (read-only). -/
theorem check_data_freshness_classification (latest_round : Int)
    (ds : List DrawRecord) (h : ds ≠ []) :
    (check_data_freshness latest_round ds = (true, Freshness.fresh) ↔
      latest_round ≤ maxRound ds) ∧
    (check_data_freshness latest_round ds = (true, Freshness.nearFresh) ↔
      (maxRound ds < latest_round ∧ latest_round - maxRound ds ≤ 2)) ∧
    (check_data_freshness latest_round ds =
        (false, Freshness.stale (latest_round - maxRound ds)) ↔
      (maxRound ds < latest_round ∧ 2 < latest_round - maxRound ds)) := by
  rw [check_data_freshness, if_neg h]
  dsimp only []
  split_ifs with h1 h2 <;> refine ⟨?_, ?_, ?_⟩ <;> simp_all <;> omega

/-- Witness for C10 amended: a dataset whose max round equals the
verified latest round is classified Fresh. -/
theorem check_data_freshness_classification_witness :
    check_data_freshness 7 [⟨7, "", [], 0⟩] = (true, Freshness.fresh) :=
  (check_data_freshness_classification 7 [⟨7, "", [], 0⟩]
    (by decide)).1.mpr (by decide)

/-- C2 fails as stated: merging two datasets that both contain round 5
keeps both records — the merge step (`pd.concat` + `sort_values`)
performs no duplicate rejection or overwriting, so the merged dataset
has a duplicate round number. -/
theorem merge_keeps_duplicate_rounds :
    ((mergeDatasets [⟨5, "a", [], 0⟩] [⟨5, "b", [], 0⟩]).map DrawRecord.round) =
      [5, 5] := by
  decide

/-- C2 amended: every dataset produced by a range load is strictly
ascending by round with no duplicate rounds; the extend-merge
concatenates and sorts by round, so when its two inputs are strictly
ascending with disjoint round sets (which extend's disjoint ranges
guarantee) the merged dataset is strictly ascending with no duplicate
rounds; the merge itself never rejects or overwrites anything — its
output is a permutation of the concatenation of its inputs. -/
theorem dataset_ordering_invariant (fetch : Int → Option Payload) (s e : Int)
    (additional_df current_df : List DrawRecord)
    (ha : (additional_df.map DrawRecord.round).Pairwise (fun a b => a < b))
    (hb : (current_df.map DrawRecord.round).Pairwise (fun a b => a < b))
    (hdisj : ∀ r ∈ additional_df.map DrawRecord.round,
      r ∉ current_df.map DrawRecord.round) :
    ((load_lotto_data_range fetch s e).1.map DrawRecord.round).Pairwise
      (fun a b => a < b) ∧
    ((mergeDatasets additional_df current_df).map DrawRecord.round).Pairwise
      (fun a b => a < b) ∧
    (mergeDatasets additional_df current_df).Perm
      (additional_df ++ current_df) := by
  have hperm : (mergeDatasets additional_df current_df).Perm
      (additional_df ++ current_df) := List.perm_insertionSort _ _
  refine ⟨?_, ?_, hperm⟩
  · rw [load_lotto_data_range]
    dsimp only []
    cases hres : (loadRounds fetch (e - s + 1) (roundList s e) 0).1 with
    | none => simp
    | some l =>
      simp only [Option.getD_some]
      exact List.Pairwise.sublist
        (loadRounds_round_sublist fetch (e - s + 1) (roundList s e) 0 l hres)
        (roundList_pairwise s e)
  · have hsorted : List.Sorted (fun a b : DrawRecord => a.round ≤ b.round)
        (mergeDatasets additional_df current_df) :=
      List.sorted_insertionSort _ _
    have hles : ((mergeDatasets additional_df current_df).map
        DrawRecord.round).Pairwise (fun a b => a ≤ b) :=
      List.pairwise_map.mpr hsorted
    have hnodupCat : ((additional_df ++ current_df).map DrawRecord.round).Nodup := by
      rw [List.map_append]
      refine List.Nodup.append ?_ ?_ ?_
      · exact ha.imp ne_of_lt
      · exact hb.imp ne_of_lt
      · exact fun r h1 h2 => hdisj r h1 h2
    have hnodup : ((mergeDatasets additional_df current_df).map
        DrawRecord.round).Nodup :=
      ((hperm.map DrawRecord.round).nodup_iff).mpr hnodupCat
    exact (hles.and hnodup).imp (fun h => lt_of_le_of_ne h.1 h.2)

/-- Witness for C2 amended: merging the one-record datasets for rounds 1
and 2 yields a strictly ascending merged dataset. -/
theorem dataset_ordering_invariant_witness :
    ((mergeDatasets [⟨1, "", [], 0⟩] [⟨2, "", [], 0⟩]).map
      DrawRecord.round).Pairwise (fun a b => a < b) :=
  (dataset_ordering_invariant (fun _ => none) 1 1 [⟨1, "", [], 0⟩]
    [⟨2, "", [], 0⟩] (by decide) (by decide) (by decide)).2.1

/-- C6: the extend (backfill) computation — with a non-empty current
dataset of minimum round `m`, `additional = min(requested, m - 1)`; when
`additional ≤ 0` the call is a no-op reported by the dedicated
already-loaded outcome, distinct from both error outcomes; otherwise the
rounds attempted are exactly the range
`[max(1, m - additional), m - 1]`. -/
theorem load_additional_data_spec (fetch : Int → Option Payload) (count : Int)
    (current_df : List DrawRecord) (h : current_df ≠ [])
    (hc : ∀ r p, fetch r = some p → (extractRecord r p).isSome) :
    (min count (minRound current_df - 1) ≤ 0 →
      load_additional_data fetch count current_df =
        (ExtendOutcome.allLoaded, []) ∧
      ExtendOutcome.allLoaded ≠ ExtendOutcome.loadFailed ∧
      ExtendOutcome.allLoaded ≠ ExtendOutcome.noBaseData) ∧
    (0 < min count (minRound current_df - 1) →
      attemptedRounds (load_additional_data fetch count current_df).2 =
        roundList
          (max 1 (minRound current_df - min count (minRound current_df - 1)))
          (minRound current_df - 1)) := by
  rw [load_additional_data, if_neg h]
  dsimp only []
  constructor
  · intro hle
    rw [if_pos hle]
    exact ⟨rfl, by simp, by simp⟩
  · intro hpos
    rw [if_neg (by omega), load_range_of_complete fetch _ _ hc]
    dsimp only []
    split
    · rw [attemptedRounds_traceBlocks]
    · rw [attemptedRounds_traceBlocks]

/-- Witness for C6, the spec scenario: a dataset whose minimum round is
501 extended by 200 attempts exactly rounds 301 through 500. -/
theorem load_additional_data_spec_witness :
    attemptedRounds (load_additional_data sampleFetch 200
      [⟨501, "", [], 0⟩, ⟨1100, "", [], 0⟩]).2 = roundList 301 500 := by
  have h := (load_additional_data_spec sampleFetch 200
    [⟨501, "", [], 0⟩, ⟨1100, "", [], 0⟩] (by decide)
    sampleFetch_complete).2 (by decide)
  exact h

/-- C1: initial-load cache acceptance — when the cache load returns a
non-empty dataset whose maximum round is at least `latest_round - 5`
(tolerance fixed at 5), the progressive initial load returns the cached
dataset as-is, performs no range load (empty trace, hence zero fetch
attempts), and saves nothing. -/
theorem initial_load_accepts_fresh_cache (fetch : Int → Option Payload)
    (now : Int) (file : CacheFile) (latest_round : Int)
    (cached_df : List DrawRecord)
    (hload : (load_from_cache now file).1 = some cached_df)
    (hne : cached_df ≠ [])
    (hfresh : latest_round - 5 ≤ maxRound cached_df) :
    load_lotto_data_progressive fetch now file latest_round =
      ⟨cached_df, [], none⟩ ∧
    attemptedRounds
      (load_lotto_data_progressive fetch now file latest_round).trace = [] := by
  have hmain : load_lotto_data_progressive fetch now file latest_round =
      ⟨cached_df, [], none⟩ := by
    rw [load_lotto_data_progressive, hload]
    dsimp only []
    rw [if_neg hne, if_pos hfresh]
  refine ⟨hmain, ?_⟩
  rw [hmain]
  rfl

/-- Witness for C1, the spec scenario: verified latest round 1100, cached
max round 1098 (≥ 1095): the initial load ends with the cached dataset
and an empty trace — zero fetches. -/
theorem initial_load_accepts_fresh_cache_witness :
    load_lotto_data_progressive (fun _ => none) 0
        (CacheFile.wellFormed [⟨1098, "", [], 0⟩] 0) 1100 =
      ⟨[⟨1098, "", [], 0⟩], [], none⟩ ∧
    maxRound [⟨1098, "", [], 0⟩] = 1098 :=
  ⟨(initial_load_accepts_fresh_cache (fun _ => none) 0
      (CacheFile.wellFormed [⟨1098, "", [], 0⟩] 0) 1100 [⟨1098, "", [], 0⟩]
      (by decide) (by decide) (by decide)).1, by decide⟩

/-- C4 fails as stated: a payload that carries the success indicator but
is missing the draw date, all six winning numbers, and the bonus number
is returned as a success by `fetch_round_data` — the function validates
only `returnValue`, performing no field validation, so the incomplete
payload is not turned into a failure result. -/
theorem fetch_round_data_no_field_validation :
    fetch_round_data
        (fun _ => Transport.ok
          ⟨"success", none, none, none, none, none, none, none, none⟩) 1 =
      some ⟨"success", none, none, none, none, none, none, none, none⟩ ∧
    payloadComplete
        ⟨"success", none, none, none, none, none, none, none, none⟩ = false :=
  ⟨by decide, by decide⟩

/-- C4 amended: for every transport oracle, round, and payload, the fetch
returns a payload exactly when the transport round-trip succeeded and the
payload carries `returnValue = "success"`; the winning-number, bonus and
date fields are not inspected by the fetch, and the function is total —
every outcome is a typed `Option`, no exception escapes. -/
theorem fetch_round_data_success_iff (transport : Int → Transport)
    (round_no : Int) (p : Payload) :
    fetch_round_data transport round_no = some p ↔
      transport round_no = Transport.ok p ∧ p.returnValue = "success" := by
  rw [fetch_round_data]
  cases h : transport round_no with
  | requestError => simp
  | jsonError => simp
  | ok data =>
    simp only [Transport.ok.injEq]
    split_ifs with hd
    · constructor
      · intro h2
        obtain rfl := Option.some.inj h2
        exact ⟨rfl, hd⟩
      · rintro ⟨rfl, _⟩
        rfl
    · constructor
      · intro h2
        exact h2.elim
      · rintro ⟨rfl, hr⟩
        exact absurd hr hd

end LottoApp
